import Mathlib

/-!
Verification of the vaccine eligibility / nearest-site program (`final.py`).

The file embeds the pure logic of the program:
* `eligible` — the phase classifier `Eligibility.eligible`;
* `buildInfo` — the record mapping built by `Eligibility.__init__`;
* `zipcodesDict` / `get_latlng` — the zip table of `Zipcode.__init__` and
  the lookup `Zipcode.get_latlng`;
* `get_dist` / `nearest` — the two-tier distance `Zipcode.get_dist` and the
  linear scan `Zipcode.nearest`;
* `mainRun` — the control flow of `main` (the first definition, the one the
  script actually executes);
* `pdCut` / `graphyes_counts` / `graphno_counts` — the bar-chart bin counts
  of `graphyes` and `graphno`.

External library calls (vincenty, haversine, pandas `cut`) are embedded by
their outcomes: the two distance routines become parameters `v` and `h`, and
`pdCut` encodes the documented semantics of `pd.cut` at the concrete bin
edges the program passes.  Python `float` values that the program only
stores, compares and passes through (never does arithmetic on) are modelled
as rationals.
-/

namespace VaccineApp

/-- Jobs granting phase 1, from `Eligibility.eligible` (`final.py` line 61). -/
def phase1_jobs : List String := ["doctor", "nurse", "therapist"]

/-- Jobs granting phase 2, from `Eligibility.eligible` (`final.py` line 62). -/
def phase2_jobs : List String := ["cashier", "teacher"]

/-- Model of `Eligibility.eligible` (`final.py` lines 44-68): first-match rule table. -/
def eligible (age : ℤ) (immunocompromised job : String) : String :=
  if 60 ≤ age ∨ job ∈ phase1_jobs then "phase 1"
  else if immunocompromised = "yes" ∨ job ∈ phase2_jobs then "phase 2"
  else "phase 3"

/-- One parsed whitespace-delimited line of the individuals file:
`name age immunocompromised job preference zipcode`
(`Eligibility.__init__`, `final.py` lines 32-40; `age` comes from `int(...)`). -/
structure RawLine where
  name : String
  age : ℤ
  immunocompromised : String
  job : String
  preference : String
  zipcode : String
deriving DecidableEq

/-- A stored record of `Eligibility.info`: the 7-tuple
`(name, age, immunocompromised, job, preference, zipcode, phase)`
(`final.py` line 42). -/
structure Person where
  name : String
  age : ℤ
  immunocompromised : String
  job : String
  preference : String
  zipcode : String
  phase : String
deriving DecidableEq

/-- One iteration of the `Eligibility.__init__` loop (`final.py` lines 41-42):
compute the phase from the parsed fields and store the 7-tuple under the name
key (a later line with the same name overwrites). -/
def insertPerson (acc : String → Option Person) (l : RawLine) :
    String → Option Person :=
  fun k =>
    if k = l.name then
      some ⟨l.name, l.age, l.immunocompromised, l.job, l.preference, l.zipcode,
        eligible l.age l.immunocompromised l.job⟩
    else acc k

/-- The `info` dictionary built by `Eligibility.__init__` (`final.py`
lines 30-42), as a partial map from names to stored records. -/
def buildInfo (lines : List RawLine) : String → Option Person :=
  lines.foldl insertPerson (fun _ => none)

/-- One parsed comma-delimited line of the zipcodes file
(`Zipcode.__init__`, `final.py` lines 119-125).  `zipRaw` is the unstripped
first field: the code keys the dictionary on it (`self.zipcodes[zip]`),
while storing the stripped form inside the record (`zipdict["zip"]`). -/
structure ZipLine where
  zipRaw : String
  zipStripped : String
  lat : ℚ
  lng : ℚ
deriving DecidableEq

/-- One iteration of the zipcodes loop (`final.py` lines 119-125): store
`(zip stripped, lat, lng)` under the raw zip key, overwriting earlier lines. -/
def insertZip (acc : String → Option (String × ℚ × ℚ)) (l : ZipLine) :
    String → Option (String × ℚ × ℚ) :=
  fun k => if k = l.zipRaw then some (l.zipStripped, l.lat, l.lng) else acc k

/-- The `zipcodes` dictionary built by `Zipcode.__init__`
(`final.py` lines 116-125). -/
def zipcodesDict (lines : List ZipLine) : String → Option (String × ℚ × ℚ) :=
  lines.foldl insertZip (fun _ => none)

/-- Model of `Zipcode.get_latlng` (`final.py` lines 136-147): a plain dictionary
lookup returning the stored `(lat, lng)`; a missing key raises `KeyError`,
modelled as `Except.error`. -/
def get_latlng (d : String → Option (String × ℚ × ℚ)) (zipcode : String) :
    Except String (ℚ × ℚ) :=
  match d zipcode with
  | some z => Except.ok (z.2.1, z.2.2)
  | none => Except.error "KeyError"

/-- A latitude/longitude pair. -/
abbrev Coord : Type := ℚ × ℚ

/-- One entry of `vaccine_locations` (`Zipcode.__init__`, `final.py`
lines 126-134): `(name, zip, lat, lng)` keyed by name. -/
structure Site where
  name : String
  zip : String
  lat : ℚ
  lng : ℚ
deriving DecidableEq

/-- Model of `Zipcode.get_dist` (`final.py` lines 172-185) given the outcomes of the
two library calls at the two points: `vres` is what `vincenty` returns
(`none` models `None`, i.e. failure to converge) and `hres` is what
`haversine` returns.  The Python test `if not dist:` is true both for `None` and
for the float `0.0`, so the fallback branch also fires on a zero vincenty
result. -/
def get_dist (vres : Option ℚ) (hres : ℚ) : ℚ :=
  match vres with
  | none => hres
  | some d => if d = 0 then hres else d

/-- Whether `Zipcode.get_dist` executes the haversine fallback: the truth
value of the Python expression `not dist` after the vincenty call (`final.py` line 183). -/
def usesFallback (vres : Option ℚ) : Bool :=
  match vres with
  | none => true
  | some d => decide (d = 0)

/-- Reading of `get_dist` as the specification describes it: the fallback result is
used exactly when the ellipsoidal method fails (returns `none`); any finite
vincenty value is returned unchanged.  (Spec-side definition, for comparison
with `get_dist`.) -/
def get_dist_spec (vres : Option ℚ) (hres : ℚ) : ℚ :=
  match vres with
  | none => hres
  | some d => d

/-- The distance `Zipcode.nearest` computes between two coordinates, given
the two library routines `v` (vincenty) and `h` (haversine). -/
def distOf (v : Coord → Coord → Option ℚ) (h : Coord → Coord → ℚ)
    (p1 p2 : Coord) : ℚ :=
  get_dist (v p1 p2) (h p1 p2)

/-- Value of `sys.float_info.max` (the initial `nearest_distance`, `final.py`
line 160) as an exact rational: `(2^53 - 1) * 2^971`. -/
def floatMax : ℚ := (2 ^ 53 - 1) * 2 ^ 971

/-- The loop of `Zipcode.nearest` (`final.py` lines 162-168): scan the sites
keeping the strictly smallest distance seen and its site name. -/
def nearestAux (dist : Coord → Coord → ℚ) (p1 : Coord) :
    List Site → ℚ → String → ℚ × String
  | [], bd, bn => (bd, bn)
  | s :: rest, bd, bn =>
    if dist p1 (s.lat, s.lng) < bd then
      nearestAux dist p1 rest (dist p1 (s.lat, s.lng)) s.name
    else
      nearestAux dist p1 rest bd bn

/-- Model of `Zipcode.nearest` (`final.py` lines 149-169): start from
`(sys.float_info.max, "")` and return the name component after the scan. -/
def nearest (v : Coord → Coord → Option ℚ) (h : Coord → Coord → ℚ)
    (sites : List Site) (p1 : Coord) : String :=
  (nearestAux (distOf v h) p1 sites floatMax "").2

/-- The first `main` (`final.py` lines 187-205), the definition in force
when line 209 runs.  The result is `(printed line, number of get_latlng
calls, number of get_dist calls)`; an uncaught exception is `Except.error`.
The unknown-name branch prints `"Name not found"` and calls neither
`get_latlng` nor `nearest`/`get_dist`; the known-name branch resolves the
stored zipcode (one `get_latlng` call) and, when that succeeds, scans every
site (one `get_dist` call per site). -/
def mainRun (info : String → Option Person)
    (zipD : String → Option (String × ℚ × ℚ))
    (v : Coord → Coord → Option ℚ) (h : Coord → Coord → ℚ)
    (sites : List Site) (name : String) :
    Except String (String × Nat × Nat) :=
  match info name with
  | some person =>
    match get_latlng zipD person.zipcode with
    | Except.ok p1 => Except.ok (nearest v h sites p1, 1, sites.length)
    | Except.error e => Except.error e
  | none => Except.ok ("Name not found", 0, 0)

/-- Model of the call `pd.cut` with `bins=[0, 25, 50, 75, 100]` made by `graphyes`
and `graphno` (`final.py` lines 250 and 289).  The pandas default is
`right=True` and `include_lowest=False`, so the intervals are
`(0,25], (25,50], (50,75], (75,100]`; any age outside them (0, negatives,
above 100) gets no bin (`NaN`, dropped by the groupby count). -/
def pdCut (age : ℤ) : Option Nat :=
  if 0 < age ∧ age ≤ 25 then some 0
  else if 25 < age ∧ age ≤ 50 then some 1
  else if 50 < age ∧ age ≤ 75 then some 2
  else if 75 < age ∧ age ≤ 100 then some 3
  else none

/-- The height of bar `b` in `graphyes` (`final.py` lines 248-252): rows
with `age < 1000`, preference `"yes"`, grouped by `pd.cut` age bin and
counted. -/
def graphyes_counts (rows : List RawLine) (b : Nat) : Nat :=
  (((rows.filter (fun r => r.age < 1000)).filter
      (fun r => r.preference = "yes")).filter
    (fun r => pdCut r.age = some b)).length

/-- The height of bar `b` in `graphno` (`final.py` lines 287-291): same as
`graphyes_counts` with preference `"no"`. -/
def graphno_counts (rows : List RawLine) (b : Nat) : Nat :=
  (((rows.filter (fun r => r.age < 1000)).filter
      (fun r => r.preference = "no")).filter
    (fun r => pdCut r.age = some b)).length

/-- The binning as the specification describes it: half-open intervals
`[0,25), [25,50), [50,75), [75,100)`, each including its lower bound and
excluding its upper bound.  (Spec-side definition, for comparison with
`pdCut`.) -/
def specCut (age : ℤ) : Option Nat :=
  if 0 ≤ age ∧ age < 25 then some 0
  else if 25 ≤ age ∧ age < 50 then some 1
  else if 50 ≤ age ∧ age < 75 then some 2
  else if 75 ≤ age ∧ age < 100 then some 3
  else none

/-- Variant of `graphyes_counts` with the binning of the specification in
place of the pandas one.  (Spec-side definition, for comparison with
`graphyes_counts`.) -/
def graphyes_counts_spec (rows : List RawLine) (b : Nat) : Nat :=
  (((rows.filter (fun r => r.age < 1000)).filter
      (fun r => r.preference = "yes")).filter
    (fun r => specCut r.age = some b)).length

/-- Membership in the phase-1 job list, spelled out. -/
theorem mem_phase1_iff (job : String) :
    job ∈ phase1_jobs ↔ job = "doctor" ∨ job = "nurse" ∨ job = "therapist" := by
  simp [phase1_jobs]

/-- Membership in the phase-2 job list, spelled out. -/
theorem mem_phase2_iff (job : String) :
    job ∈ phase2_jobs ↔ job = "cashier" ∨ job = "teacher" := by
  simp [phase2_jobs]

/-- C1: `Eligibility.eligible` evaluates the rule table in order, first match
winning: phase 1 when `age ≥ 60` or the job is doctor/nurse/therapist (in
particular for every `age ≥ 60` regardless of the other fields); otherwise
phase 2 when immunocompromised is `"yes"` or the job is cashier/teacher;
otherwise phase 3. -/
theorem eligible_rule_table (age : ℤ) (imm job : String) :
    (60 ≤ age → eligible age imm job = "phase 1") ∧
    ((60 ≤ age ∨ job = "doctor" ∨ job = "nurse" ∨ job = "therapist") →
      eligible age imm job = "phase 1") ∧
    (¬(60 ≤ age ∨ job = "doctor" ∨ job = "nurse" ∨ job = "therapist") →
      (imm = "yes" ∨ job = "cashier" ∨ job = "teacher") →
        eligible age imm job = "phase 2") ∧
    (¬(60 ≤ age ∨ job = "doctor" ∨ job = "nurse" ∨ job = "therapist") →
      ¬(imm = "yes" ∨ job = "cashier" ∨ job = "teacher") →
        eligible age imm job = "phase 3") := by
  have h1 := mem_phase1_iff job
  have h2 := mem_phase2_iff job
  refine ⟨fun h => ?_, fun h => ?_, fun hn h => ?_, fun hn hn2 => ?_⟩
  · unfold eligible
    rw [if_pos (Or.inl h)]
  · unfold eligible
    rcases h with h | h
    · rw [if_pos (Or.inl h)]
    · rw [if_pos (Or.inr (h1.mpr h))]
  · have c1 : ¬(60 ≤ age ∨ job ∈ phase1_jobs) := by rw [h1]; exact hn
    have c2 : imm = "yes" ∨ job ∈ phase2_jobs := by rw [h2]; exact h
    unfold eligible
    rw [if_neg c1, if_pos c2]
  · have c1 : ¬(60 ≤ age ∨ job ∈ phase1_jobs) := by rw [h1]; exact hn
    have c2 : ¬(imm = "yes" ∨ job ∈ phase2_jobs) := by rw [h2]; exact hn2
    unfold eligible
    rw [if_neg c1, if_neg c2]

/-- Witness for C1: a 65-year-old with no qualifying job or immune status is
still phase 1. -/
theorem eligible_rule_table_witness : eligible 65 "no" "clerk" = "phase 1" :=
  (eligible_rule_table 65 "no" "clerk").1 (by decide)

/-- The fold of `Eligibility.__init__` preserves the phase invariant. -/
theorem buildInfo_fold_phase (lines : List RawLine) :
    ∀ acc : String → Option Person,
      (∀ k p, acc k = some p →
        p.phase = eligible p.age p.immunocompromised p.job) →
      ∀ k p, lines.foldl insertPerson acc k = some p →
        p.phase = eligible p.age p.immunocompromised p.job := by
  induction lines with
  | nil => exact fun acc hacc => hacc
  | cons l ls ih =>
    intro acc hacc k p hp
    rw [List.foldl_cons] at hp
    refine ih (insertPerson acc l) ?_ k p hp
    intro k' p' hp'
    unfold insertPerson at hp'
    by_cases hk : k' = l.name
    · rw [if_pos hk] at hp'
      cases hp'
      rfl
    · rw [if_neg hk] at hp'
      exact hacc k' p' hp'

/-- C10: every record stored by `Eligibility.__init__` carries a phase equal
to `eligible` applied to the same stored age, immunocompromised and
job fields. -/
theorem info_phase_invariant (lines : List RawLine) (k : String) (p : Person)
    (hp : buildInfo lines k = some p) :
    p.phase = eligible p.age p.immunocompromised p.job :=
  buildInfo_fold_phase lines (fun _ => none) (fun _ _ h => by cases h) k p hp

/-- Witness for C10 at a concrete record. -/
theorem info_phase_invariant_witness :
    ("phase 1" : String) = eligible 45 "no" "doctor" :=
  info_phase_invariant [⟨"Fariba", 45, "no", "doctor", "yes", "02139"⟩]
    "Fariba" ⟨"Fariba", 45, "no", "doctor", "yes", "02139", "phase 1"⟩
    (by decide)

/-- Folding zip lines whose raw key differs from `z` leaves the entry for
`z` unchanged. -/
theorem zipfold_skip (l2 : List ZipLine) (z : String)
    (hz : ∀ e ∈ l2, e.zipRaw ≠ z) :
    ∀ acc, (l2.foldl insertZip acc) z = acc z := by
  induction l2 with
  | nil => intro acc; rfl
  | cons e es ih =>
    intro acc
    rw [List.foldl_cons,
      ih (fun e' he' => hz e' (List.mem_cons_of_mem e he')) (insertZip acc e)]
    unfold insertZip
    exact if_neg fun hcontra => hz e (List.mem_cons_self e es) hcontra.symm

/-- C6: `Zipcode.get_latlng` on a key of the loaded table returns exactly
the `(lat, lng)` pair parsed and stored for that key (the last line with
that raw zip key, since a Python dict keeps the last write). -/
theorem get_latlng_roundtrip (l1 l2 : List ZipLine) (e : ZipLine) (z : String)
    (hz : e.zipRaw = z) (hlast : ∀ e' ∈ l2, e'.zipRaw ≠ z) :
    get_latlng (zipcodesDict (l1 ++ e :: l2)) z = Except.ok (e.lat, e.lng) := by
  have hd : zipcodesDict (l1 ++ e :: l2) z =
      some (e.zipStripped, e.lat, e.lng) := by
    unfold zipcodesDict
    rw [List.foldl_append, List.foldl_cons,
      zipfold_skip l2 z hlast
        (insertZip (List.foldl insertZip (fun _ => none) l1) e)]
    unfold insertZip
    exact if_pos hz.symm
  unfold get_latlng
  rw [hd]

/-- Fixture zip lines for the witnesses. -/
def zipLineA : ZipLine := ⟨"10001", "10001", 40, -73⟩

/-- Fixture zip line stored between two others. -/
def zipLineB : ZipLine := ⟨"02139", "02139", 42, -71⟩

/-- Fixture zip line after the looked-up one. -/
def zipLineC : ZipLine := ⟨"20001", "20001", 38, -77⟩

/-- Witness for C6 at a concrete three-line table. -/
theorem get_latlng_roundtrip_witness :
    get_latlng (zipcodesDict ([zipLineA] ++ zipLineB :: [zipLineC])) "02139" =
      Except.ok (zipLineB.lat, zipLineB.lng) :=
  get_latlng_roundtrip [zipLineA] [zipLineC] zipLineB "02139" rfl (by decide)

/-- C7: querying a name absent from the individuals mapping prints exactly
`"Name not found"`; the zip table, the distance routines and the site list
are never consulted (zero `get_latlng` calls, zero distance computations). -/
theorem main_unknown_name (info : String → Option Person)
    (zipD : String → Option (String × ℚ × ℚ))
    (v : Coord → Coord → Option ℚ) (h : Coord → Coord → ℚ)
    (sites : List Site) (name : String) (hname : info name = none) :
    mainRun info zipD v h sites name = Except.ok ("Name not found", 0, 0) := by
  unfold mainRun
  rw [hname]

/-- Fixture individuals line for the witnesses. -/
def rawFariba : RawLine := ⟨"Fariba", 45, "no", "doctor", "yes", "02139"⟩

/-- Witness for C7: "Bob" is not in the loaded records. -/
theorem main_unknown_name_witness :
    mainRun (buildInfo [rawFariba]) (zipcodesDict [zipLineB]) (fun _ _ => none)
      (fun _ _ => 1) [] "Bob" = Except.ok ("Name not found", 0, 0) :=
  main_unknown_name _ _ _ _ _ "Bob" (by decide)

/-- C8: a zip code absent from the loaded table makes `Zipcode.get_latlng`
fail with a KeyError, and `main` has no handler: the error propagates out of
`mainRun` instead of producing a printed line. -/
theorem missing_zip_keyerror (zipD : String → Option (String × ℚ × ℚ))
    (z : String) (hz : zipD z = none) :
    get_latlng zipD z = Except.error "KeyError" ∧
    ∀ (info : String → Option Person) (v : Coord → Coord → Option ℚ)
      (h : Coord → Coord → ℚ) (sites : List Site) (name : String)
      (person : Person), info name = some person → person.zipcode = z →
        mainRun info zipD v h sites name = Except.error "KeyError" := by
  have hg : get_latlng zipD z = Except.error "KeyError" := by
    unfold get_latlng
    rw [hz]
  refine ⟨hg, ?_⟩
  intro info v h sites name person hperson hzip
  unfold mainRun
  simp only [hperson, hzip, hg]

/-- Fixture individuals line whose zipcode is not in the zip table. -/
def rawGhost : RawLine := ⟨"Ghost", 30, "no", "clerk", "yes", "99999"⟩

/-- Witness for C8: "Ghost" is a known name whose zip `99999` is absent. -/
theorem missing_zip_keyerror_witness :
    mainRun (buildInfo [rawGhost]) (zipcodesDict [zipLineB]) (fun _ _ => none)
      (fun _ _ => 1) [] "Ghost" = Except.error "KeyError" :=
  (missing_zip_keyerror (zipcodesDict [zipLineB]) "99999" (by decide)).2
    (buildInfo [rawGhost]) _ _ [] "Ghost"
    ⟨"Ghost", 30, "no", "clerk", "yes", "99999", eligible 30 "no" "clerk"⟩
    (by decide) rfl

/-- C3 counterexample: at an input where vincenty yields the finite distance
`0.0` (e.g. two coordinates closer than the rounding step of vincenty, where
haversine yields a small nonzero value, here scaled to `1`), the Python test
`if not dist:` still takes the haversine fallback, and the returned value is
the haversine one, not the vincenty one. -/
theorem get_dist_fallback_on_zero :
    usesFallback (some 0) = true ∧ (some (0 : ℚ)) ≠ (none : Option ℚ) ∧
    get_dist (some 0) 1 = 1 ∧ get_dist_spec (some 0) 1 = 0 := by
  refine ⟨by simp [usesFallback], fun h => Option.noConfusion h,
    by simp [get_dist], rfl⟩

/-- C3 amended: the haversine fallback is used exactly when vincenty returns
a falsy value — `None` (non-convergence) or the float `0.0`; whenever
vincenty yields a finite nonzero distance, `get_dist` returns that value
unchanged. -/
theorem get_dist_amended (d hres : ℚ) :
    (d ≠ 0 → get_dist (some d) hres = d ∧ usesFallback (some d) = false) ∧
    (get_dist none hres = hres ∧ usesFallback none = true) ∧
    (get_dist (some 0) hres = hres ∧ usesFallback (some 0) = true) := by
  refine ⟨fun hd => ⟨by simp [get_dist, hd], by simp [usesFallback, hd]⟩,
    ⟨rfl, rfl⟩, ⟨by simp [get_dist], by simp [usesFallback]⟩⟩

/-- Witness for the amended C3 claim at vincenty distance 5, haversine 3. -/
theorem get_dist_amended_witness :
    get_dist (some 5) 3 = 5 ∧ usesFallback (some 5) = false :=
  (get_dist_amended 5 3).1 (by norm_num)

/-- If no remaining site distance beats the incoming best, the scan of
`Zipcode.nearest` keeps the incoming pair. -/
theorem nearestAux_no_update (dist : Coord → Coord → ℚ) (p1 : Coord)
    (l : List Site) :
    ∀ bd bn, (∀ s ∈ l, bd ≤ dist p1 (s.lat, s.lng)) →
      nearestAux dist p1 l bd bn = (bd, bn) := by
  induction l with
  | nil => intro bd bn _; rfl
  | cons s rest ih =>
    intro bd bn hle
    unfold nearestAux
    rw [if_neg (not_lt.mpr (hle s (List.mem_cons_self s rest)))]
    exact ih bd bn fun t ht => hle t (List.mem_cons_of_mem s ht)

/-- The final name of the scan is the incoming name or the name of one of
the scanned sites. -/
theorem nearestAux_name_mem (dist : Coord → Coord → ℚ) (p1 : Coord)
    (l : List Site) :
    ∀ bd bn, (nearestAux dist p1 l bd bn).2 = bn ∨
      (nearestAux dist p1 l bd bn).2 ∈ l.map Site.name := by
  induction l with
  | nil => intro bd bn; exact Or.inl rfl
  | cons s rest ih =>
    intro bd bn
    unfold nearestAux
    by_cases hlt : dist p1 (s.lat, s.lng) < bd
    · rw [if_pos hlt]
      rcases ih (dist p1 (s.lat, s.lng)) s.name with hm | hm

      · exact Or.inr (by rw [hm]; exact List.mem_cons_self _ _)
      · exact Or.inr (List.mem_cons_of_mem _ hm)
    · rw [if_neg hlt]
      rcases ih bd bn with hm | hm
      · exact Or.inl hm
      · exact Or.inr (List.mem_cons_of_mem _ hm)

/-- If `s` attains distance `ds`, strictly below the incoming best and every
earlier distance, and no later site is strictly closer, the scan ends
on `s.name`. -/
theorem nearestAux_first_min (dist : Coord → Coord → ℚ) (p1 : Coord)
    (s : Site) (post : List Site) (ds : ℚ)
    (hs : dist p1 (s.lat, s.lng) = ds)
    (hpost : ∀ t ∈ post, ds ≤ dist p1 (t.lat, t.lng)) :
    ∀ (pre : List Site) (bd : ℚ) (bn : String),
      (∀ t ∈ pre, ds < dist p1 (t.lat, t.lng)) → ds < bd →
      (nearestAux dist p1 (pre ++ s :: post) bd bn).2 = s.name := by
  intro pre
  induction pre with
  | nil =>
    intro bd bn _ hbd
    rw [List.nil_append]
    unfold nearestAux
    rw [hs, if_pos hbd, nearestAux_no_update dist p1 post ds s.name hpost]
  | cons t pre ih =>
    intro bd bn hpre hbd
    rw [List.cons_append]
    unfold nearestAux
    by_cases hlt : dist p1 (t.lat, t.lng) < bd
    · rw [if_pos hlt]
      exact ih _ _ (fun u hu => hpre u (List.mem_cons_of_mem t hu))
        (hpre t (List.mem_cons_self t pre))
    · rw [if_neg hlt]
      exact ih _ _ (fun u hu => hpre u (List.mem_cons_of_mem t hu)) hbd

/-- C5: when several sites attain the minimal distance, `Zipcode.nearest`
returns the first of them in the iteration order of `vaccine_locations`:
the strict `<` update never lets a later site at an equal distance replace
the current minimum. -/
theorem nearest_ties_keep_first (v : Coord → Coord → Option ℚ)
    (h : Coord → Coord → ℚ) (p1 : Coord) (pre post : List Site) (s : Site)
    (hpre : ∀ t ∈ pre,
      distOf v h p1 (s.lat, s.lng) < distOf v h p1 (t.lat, t.lng))
    (hpost : ∀ t ∈ post,
      distOf v h p1 (s.lat, s.lng) ≤ distOf v h p1 (t.lat, t.lng))
    (hfin : distOf v h p1 (s.lat, s.lng) < floatMax) :
    nearest v h (pre ++ s :: post) p1 = s.name :=
  nearestAux_first_min (distOf v h) p1 s post _ rfl hpost pre floatMax ""
    hpre hfin

/-- C2: on a non-empty site mapping `Zipcode.nearest` returns one of the
keys of the mapping (every real distance is below the `sys.float_info.max`
sentinel); on an empty mapping it returns the empty string. -/
theorem nearest_mem_sites (v : Coord → Coord → Option ℚ)
    (h : Coord → Coord → ℚ) (sites : List Site) (p1 : Coord)
    (hb : ∀ s ∈ sites, distOf v h p1 (s.lat, s.lng) < floatMax) :
    (sites = [] → nearest v h sites p1 = "") ∧
    (sites ≠ [] → nearest v h sites p1 ∈ sites.map Site.name) := by
  constructor
  · intro hs
    subst hs
    rfl
  · intro hs
    cases sites with
    | nil => exact absurd rfl hs
    | cons s rest =>
      unfold nearest nearestAux
      rw [if_pos (hb s (List.mem_cons_self s rest))]
      rcases nearestAux_name_mem (distOf v h) p1 rest
          (distOf v h p1 (s.lat, s.lng)) s.name with hm | hm
      · rw [hm]
        exact List.mem_cons_self _ _
      · exact List.mem_cons_of_mem _ hm

/-- Any member of a list splits it at the first occurrence of that member. -/
theorem first_occurrence {α : Type} (a : α) (l : List α) (hm : a ∈ l) :
    ∃ pre post, l = pre ++ a :: post ∧ a ∉ pre := by
  induction l with
  | nil => cases hm
  | cons b rest ih =>
    by_cases hb : a = b
    · exact ⟨[], rest, by rw [hb, List.nil_append], List.not_mem_nil a⟩
    · have hr : a ∈ rest := by
        rcases List.mem_cons.mp hm with hh | hh
        · exact absurd hh hb
        · exact hh
      rcases ih hr with ⟨pre, post, heq, hnot⟩
      refine ⟨b :: pre, post, by rw [List.cons_append, heq], fun hc => ?_⟩
      rcases List.mem_cons.mp hc with hh | hh
      · exact hb hh
      · exact hnot hh

/-- C4: when the query coordinate coincides exactly with the stored
coordinate of site `s`, and `s` is the unique site at distance 0 (its
distance dominates that of every other site), `Zipcode.nearest` returns
`s.name`.  The hypotheses on
`v` and `h` are the coincident-point behaviour of the two libraries:
vincenty short-circuits identical points to `0.0` and haversine of a point
with itself is `0.0`. -/
theorem nearest_coincident (v : Coord → Coord → Option ℚ)
    (h : Coord → Coord → ℚ) (sites : List Site) (p1 : Coord) (s : Site)
    (hmem : s ∈ sites) (hloc : (s.lat, s.lng) = p1)
    (hv : v p1 p1 = some 0) (hh : h p1 p1 = 0)
    (hdom : ∀ t ∈ sites, t ≠ s → 0 < distOf v h p1 (t.lat, t.lng)) :
    nearest v h sites p1 = s.name := by
  have hd0 : distOf v h p1 (s.lat, s.lng) = 0 := by
    rw [hloc]
    unfold distOf
    rw [hv, hh]
    simp [get_dist]
  rcases first_occurrence s sites hmem with ⟨pre, post, heq, hnpre⟩
  subst heq
  unfold nearest
  refine nearestAux_first_min (distOf v h) p1 s post 0 hd0 ?_ pre floatMax ""
    ?_ ?_
  · intro t ht
    by_cases hts : t = s
    · subst hts
      exact le_of_eq hd0.symm
    · exact le_of_lt (hdom t
        (List.mem_append_right pre (List.mem_cons_of_mem s ht)) hts)
  · intro t ht
    have hts : t ≠ s := fun hc => hnpre (hc ▸ ht)
    exact hdom t (List.mem_append_left _ ht) hts
  · norm_num [floatMax]

/-- Witness vincenty stub: always fails to converge. -/
def vNone : Coord → Coord → Option ℚ := fun _ _ => none

/-- Witness vincenty stub: always returns the float `0.0`. -/
def vZero : Coord → Coord → Option ℚ := fun _ _ => some 0

/-- Witness haversine stub: the distance is the latitude of the second point. -/
def hLat : Coord → Coord → ℚ := fun _ p2 => p2.1

/-- Witness for C5: the tie between "B" (earlier) and "C" (later, equal
distance 1) is resolved to "B"; "A" is farther. -/
theorem nearest_ties_keep_first_witness :
    nearest vNone hLat
      ([⟨"A", "z", 3, 0⟩] ++ (⟨"B", "z", 1, 0⟩ : Site) :: [⟨"C", "z", 1, 5⟩])
      (0, 0) = "B" :=
  nearest_ties_keep_first vNone hLat (0, 0) _ _ _
    (by norm_num [distOf, get_dist, vNone, hLat])
    (by norm_num [distOf, get_dist, vNone, hLat])
    (by norm_num [distOf, get_dist, vNone, hLat, floatMax])

/-- Witness for C2 on a concrete two-site mapping. -/
theorem nearest_mem_sites_witness :
    nearest vNone hLat [⟨"A", "z", 3, 0⟩, ⟨"B", "z", 1, 0⟩] (0, 0) ∈
      ([⟨"A", "z", 3, 0⟩, ⟨"B", "z", 1, 0⟩] : List Site).map Site.name :=
  (nearest_mem_sites vNone hLat _ (0, 0)
    (by norm_num [distOf, get_dist, vNone, hLat, floatMax])).2
    (by simp)

/-- Witness for C4: the query `(0, 2)` coincides with site "S". -/
theorem nearest_coincident_witness :
    nearest vZero hLat [⟨"S", "z", 0, 2⟩, ⟨"T", "z", 5, 5⟩] (0, 2) = "S" :=
  nearest_coincident vZero hLat [⟨"S", "z", 0, 2⟩, ⟨"T", "z", 5, 5⟩] (0, 2)
    ⟨"S", "z", 0, 2⟩ (List.mem_cons_self _ _) rfl rfl rfl
    (by norm_num [distOf, get_dist, vZero, hLat])

/-- Bin `b < 4` of `pd.cut` is exactly the left-open right-closed interval
`(25b, 25(b+1)]`. -/
theorem pdCut_eq_iff (b : Nat) (hb : b < 4) (age : ℤ) :
    pdCut age = some b ↔ 25 * (b : ℤ) < age ∧ age ≤ 25 * ((b : ℤ) + 1) := by
  interval_cases b <;> unfold pdCut <;> split_ifs <;> simp_all <;> omega

/-- C9 amended: each bar of `graphyes`/`graphno` counts the rows with the
matching preference, age below 1000, and age in the left-open right-closed
bin `(25b, 25(b+1)]` — a bin excludes its lower bound and includes its
upper bound, and ages outside `(0, 100]` are counted in no bin. -/
theorem graph_counts_bins (rows : List RawLine) (b : Nat) (hb : b < 4) :
    graphyes_counts rows b = (rows.filter (fun r =>
      r.age < 1000 ∧ r.preference = "yes" ∧
      25 * (b : ℤ) < r.age ∧ r.age ≤ 25 * ((b : ℤ) + 1))).length ∧
    graphno_counts rows b = (rows.filter (fun r =>
      r.age < 1000 ∧ r.preference = "no" ∧
      25 * (b : ℤ) < r.age ∧ r.age ≤ 25 * ((b : ℤ) + 1))).length := by
  unfold graphyes_counts graphno_counts
  constructor <;>
  · rw [List.filter_filter, List.filter_filter]
    apply congrArg List.length
    apply List.filter_congr
    intro r _
    rw [Bool.eq_iff_iff]
    simp only [Bool.and_eq_true, decide_eq_true_eq]
    rw [pdCut_eq_iff b hb r.age]
    tauto

/-- Fixture row aged exactly 25, willing to take the vaccine. -/
def rowAge25 : RawLine := ⟨"alice", 25, "no", "clerk", "yes", "00000"⟩

/-- C9 counterexample: under the pandas binning of the code the age-25 row
lands in bar 0 (bin `(0,25]`), not bar 1; the `[25,50)` binning of the claim
(spec-side
`graphyes_counts_spec`) would put it in bar 1. -/
theorem graph_counts_claim_false :
    graphyes_counts [rowAge25] 1 = 0 ∧ graphyes_counts [rowAge25] 0 = 1 ∧
    graphyes_counts_spec [rowAge25] 1 = 1 ∧
    graphyes_counts_spec [rowAge25] 0 = 0 := by
  refine ⟨?_, ?_, ?_, ?_⟩ <;> decide

/-- Witness for the amended C9 claim at a concrete row and bar 0. -/
theorem graph_counts_bins_witness :
    graphyes_counts [rowAge25] 0 = (([rowAge25] : List RawLine).filter
      (fun r => r.age < 1000 ∧ r.preference = "yes" ∧
        25 * ((0 : Nat) : ℤ) < r.age ∧
        r.age ≤ 25 * (((0 : Nat) : ℤ) + 1))).length ∧
    graphno_counts [rowAge25] 0 = (([rowAge25] : List RawLine).filter
      (fun r => r.age < 1000 ∧ r.preference = "no" ∧
        25 * ((0 : Nat) : ℤ) < r.age ∧
        r.age ≤ 25 * (((0 : Nat) : ℤ) + 1))).length :=
  graph_counts_bins [rowAge25] 0 (by decide)

end VaccineApp
